import Mathlib

/-!
Shallow embedding of `main.go` of 3JoB/go-outline: a CLI tool that parses a
single Go source file and prints a JSON outline of its top-level declarations.

The embedding models:
* the fragment of `go/ast` the program consumes (`GoFile`, `GoDecl`, `GoSpec`,
  receiver fields and type expressions),
* `getReceiverType` (main.go:136-147),
* the outline-building loop of `main` (main.go:61-122) and the root `package`
  node construction (main.go:124-131),
* the control flow of `main` (main.go:32-134) including the exact behaviour of
  `reportError` (main.go:149-151), which prints to stderr and RETURNS (it does
  not call `os.Exit`), and the `err` variable introduced by `:=` at main.go:44,
  which shadows the outer `err` declared at main.go:41 so that the assignment
  at main.go:52 targets the shadowed variable.

External collaborators (`go/parser.ParseFile`, `buildutil.ParseOverlayArchive`,
the JSON serializer) are passed in as parameters or modelled from the spec
where their behaviour is what a claim is about; this is noted at each such
definition.
-/

set_option autoImplicit false

namespace GoOutline

/-- The two parser modes the program selects between (main.go:35-38):
`parser.ParseComments` by default, `parser.ImportsOnly` under `-imports-only`. -/
inductive ParserMode where
  | parseComments
  | importsOnly
deriving DecidableEq, Repr

/-- The `token.Token` values relevant to the builder: `decl.Tok` of a
`*ast.GenDecl` (compared against `token.CONST` at main.go:103 and printed in
the error message at main.go:116). -/
inductive GoToken where
  | CONST
  | VAR
  | IMPORT
  | TYPE
  | ILLEGAL
deriving DecidableEq, Repr

/-- How a `token.Token` prints under `%s` (used by the main.go:116 message). -/
def GoToken.str : GoToken → String
  | .CONST => "const"
  | .VAR => "var"
  | .IMPORT => "import"
  | .TYPE => "type"
  | .ILLEGAL => "ILLEGAL"

/-- The receiver type expressions (`ast.Expr`) the program can meet as
`decl.Recv.List[0].Type`: a named type, a pointer, a generic instantiation
(`ast.IndexExpr` / `ast.IndexListExpr`; in a method receiver the type
arguments are required by the Go grammar to be plain identifiers, hence
`List String`), or a malformed node (`ast.BadExpr`, reachable through partial
ASTs) on which formatting fails. -/
inductive TypeExpr where
  | ident (name : String)
  | star (elem : TypeExpr)
  | index (base : TypeExpr) (arg : TypeExpr)
  | indexList (base : TypeExpr) (args : List String)
  | bad

/-- One `*ast.Field` of a receiver `*ast.FieldList`: the receiver variable
names and the receiver type expression. -/
structure GoField where
  names : List String
  type : TypeExpr

/-- Modelled from the spec (§4.2, §9): `format.Node` (package `go/format`,
outside this repository) applied to a receiver type expression re-renders it
to source-equivalent text, preserving pointer markers and generic type
parameter lists; a malformed node yields an error. -/
def formatNode : TypeExpr → Except String String
  | .ident name => .ok name
  | .star elem => do
    let s ← formatNode elem
    return "*" ++ s
  | .index base arg => do
    let b ← formatNode base
    let a ← formatNode arg
    return b ++ "[" ++ a ++ "]"
  | .indexList base args => do
    let b ← formatNode base
    return b ++ "[" ++ String.intercalate ", " args ++ "]"
  | .bad => .error "unsupported node type"

/-- `getReceiverType` (main.go:136-147). `recv = none` models `decl.Recv == nil`.
The result is `none` when the Go code would panic (the out-of-bounds access
`decl.Recv.List[0]` on an empty field list); otherwise `some r` where `r` is
the `(string, error)` pair: `.ok ""` for a plain function, `.ok text` for a
rendered receiver, `.error e` (with the empty string returned alongside) when
`format.Node` fails. -/
def getReceiverType (recv : Option (List GoField)) : Option (Except String String) :=
  match recv with
  | none => some (.ok "")
  | some fields =>
    match fields.head? with
    | none => none
    | some f =>
      match formatNode f.type with
      | .ok s => some (.ok s)
      | .error e => some (.error e)

/-- One identifier from the `Names` of an `*ast.ValueSpec`, with its `Pos()`/`End()`. -/
structure VIdent where
  name : String
  pos : Nat
  pend : Nat

/-- The `ast.Spec` variants of a `*ast.GenDecl` (switch at main.go:80-117):
an import spec carries the raw `spec.Path.Value` literal (quotes included), a
type spec its declared name, a value spec its identifier list. `otherSpec`
stands for the `default` arm of the switch. -/
inductive GoSpec where
  | importSpec (pathValue : String) (pos pend : Nat)
  | typeSpec (name : String) (pos pend : Nat)
  | valueSpec (names : List VIdent)
  | otherSpec

/-- The top-level `ast.Decl` variants (switch at main.go:64-121): function or
method declarations, generic (grouped) declarations, and `badDecl` for the
`default` arm (e.g. `*ast.BadDecl` in a partial AST). -/
inductive GoDecl where
  | funcDecl (name : String) (recv : Option (List GoField)) (pos pend : Nat)
  | genDecl (tok : GoToken) (specs : List GoSpec) (pos pend : Nat)
  | badDecl (pos pend : Nat)

/-- `Decl.Pos()`. -/
def GoDecl.pos : GoDecl → Nat
  | .funcDecl _ _ p _ => p
  | .genDecl _ _ p _ => p
  | .badDecl p _ => p

/-- `Decl.End()`. -/
def GoDecl.pend : GoDecl → Nat
  | .funcDecl _ _ _ e => e
  | .genDecl _ _ _ e => e
  | .badDecl _ e => e

/-- The fragment of `*ast.File` the program reads: `f.Package` (position of the
`package` keyword), `f.Name` and its `End()`, and the top-level `f.Decls`. -/
structure GoFile where
  packagePos : Nat
  name : String
  nameEnd : Nat
  decls : List GoDecl

/-- `ast.File.Pos()`: the position of the `package` keyword. -/
def GoFile.pos (f : GoFile) : Nat := f.packagePos

/-- `ast.File.End()`: the end of the last declaration, or of the package name
when there are no declarations. -/
def GoFile.pend (f : GoFile) : Nat :=
  match f.decls.getLast? with
  | some d => d.pend
  | none => f.nameEnd

/-- The `Declaration` struct (main.go:17-24). `children` is a plain slice
field: always present in the constructed value (possibly empty), serialized
with `omitempty`. -/
inductive Declaration where
  | mk (label : String) (type : String) (receiverType : String)
      (start : Nat) (pend : Nat) (children : List Declaration)

def Declaration.label : Declaration → String
  | .mk l _ _ _ _ _ => l

def Declaration.type : Declaration → String
  | .mk _ t _ _ _ _ => t

def Declaration.receiverType : Declaration → String
  | .mk _ _ r _ _ _ => r

def Declaration.start : Declaration → Nat
  | .mk _ _ _ s _ _ => s

def Declaration.pend : Declaration → Nat
  | .mk _ _ _ _ e _ => e

def Declaration.children : Declaration → List Declaration
  | .mk _ _ _ _ _ c => c

/-- One `*ast.FuncDecl` case of the builder loop (main.go:65-77): compute the
receiver type; on a render error report it (main.go:68, `reportError` returns)
and keep the empty string `getReceiverType` returned; append one `function`
node. `none` models the panic propagating out of `getReceiverType`. -/
def processFuncDecl (name : String) (recv : Option (List GoField)) (pos pend : Nat) :
    Option (List Declaration × List String) :=
  match getReceiverType recv with
  | none => none
  | some (.ok rt) =>
    some ([.mk name "function" rt pos pend []], [])
  | some (.error e) =>
    some ([.mk name "function" "" pos pend []], ["failed to parse receiver type: " ++ e])

/-- One `ast.Spec` case of the inner switch (main.go:80-117). Returns the
emitted declarations and the stderr messages, in order. -/
def processSpec (tok : GoToken) : GoSpec → List Declaration × List String
  | .importSpec pathValue pos pend =>
    ([.mk pathValue "import" "" pos pend []], [])
  | .typeSpec name pos pend =>
    ([.mk name "type" "" pos pend []], [])
  | .valueSpec names =>
    (names.map fun i =>
      .mk i.name (if tok = GoToken.CONST then "constant" else "variable") "" i.pos i.pend [],
     [])
  | .otherSpec =>
    ([], ["unknown token type: " ++ tok.str])

/-- One top-level `ast.Decl` case of the builder loop (main.go:63-122). -/
def processDecl : GoDecl → Option (List Declaration × List String)
  | .funcDecl name recv pos pend => processFuncDecl name recv pos pend
  | .genDecl tok specs _ _ =>
    some (specs.foldl
      (fun acc s =>
        let r := processSpec tok s
        (acc.1 ++ r.1, acc.2 ++ r.2))
      ([], []))
  | .badDecl pos _ => some ([], ["unknown declaration @ " ++ toString pos])

/-- Result of the builder loop: the `declarations` slice, the stderr messages
emitted while looping, and whether the loop panicked. -/
structure BuildOut where
  decls : List Declaration
  errs : List String
  panicked : Bool

/-- The builder loop over `fileAst.Decls` (main.go:61-122). A panic aborts the
loop; messages reported before the panicking declaration are kept. -/
def buildDecls : List GoDecl → BuildOut
  | [] => ⟨[], [], false⟩
  | d :: ds =>
    match processDecl d with
    | none => ⟨[], [], true⟩
    | some (dd, ee) =>
      let r := buildDecls ds
      ⟨dd ++ r.decls, ee ++ r.errs, r.panicked⟩

/-- The root `package` node (main.go:124-131): label is the declared package
name, span is `fileAst.Pos()..fileAst.End()`, children are the collected
declarations. -/
def rootNode (f : GoFile) : Declaration :=
  .mk f.name "package" "" f.pos f.pend (buildDecls f.decls).decls

/-- A JSON string literal (escaping of special characters elided: the labels
involved are Go identifiers and quoted import paths). -/
def jstr (s : String) : String := "\x22" ++ s ++ "\x22"

/-- Modelled from the spec (§6) and the struct tags at main.go:17-24: the JSON
serialization of one `Declaration` — fields `label`, `type`, `receiverType`
(tag `omitempty`: omitted when it is the empty string), `start`, `end`, and
`children` (tag `omitempty`: omitted when the slice is empty). -/
def marshalDecl : Declaration → String
  | .mk label type receiverType start pend children =>
    "\x7b" ++ jstr "label" ++ ":" ++ jstr label
    ++ "," ++ jstr "type" ++ ":" ++ jstr type
    ++ (if receiverType = "" then "" else "," ++ jstr "receiverType" ++ ":" ++ jstr receiverType)
    ++ "," ++ jstr "start" ++ ":" ++ toString start
    ++ "," ++ jstr "end" ++ ":" ++ toString pend
    ++ (if children.isEmpty then ""
        else "," ++ jstr "children" ++ ":["
             ++ String.intercalate "," (children.attach.map fun c => marshalDecl c.1) ++ "]")
    ++ "\x7d"
decreasing_by
  simp_wf
  have h := List.sizeOf_lt_of_mem c.2
  omega


/-- What `parser.ParseFile` returns: the (possibly nil, possibly partial)
`*ast.File` and the error value. -/
structure ParseOut where
  fileAst : Option GoFile
  err : Option String

/-- The observable outcome of one run of `main`: the lines written to standard
error, the `[]*Declaration` value passed to `Println` (if that line is
reached), and whether the run died in a runtime panic. -/
structure MainResult where
  stderr : List String
  printed : Option (List Declaration)
  panicked : Bool

/-- `reportError` (main.go:149-151): it formats `error: <message>` to standard
error and returns — it does not exit the process. -/
def errLine (m : String) : String := "error: " ++ m

/-- The control flow of `main` (main.go:32-134), parameterized over the
external collaborators: `archiveResult` is what `buildutil.ParseOverlayArchive`
returns on the standard input of this run (on error it returns a nil map, modelled
as the empty association list); `disk` is the content `parser.ParseFile` can
read for the `-f` path when its `src` argument is nil (`none` = unreadable);
`parseFile` is `parser.ParseFile` applied to the resolved source bytes.

Faithful details: in `-modified` mode a missing archive entry leaves `fc` as
the nil byte slice, which `ParseFile` receives as a non-nil empty source (no
disk fallback); the `err` of main.go:44 is declared with `:=` inside the `if`
block and shadows the outer `err` of main.go:41, so the assignment at
main.go:52 never reaches the `err != nil` check at main.go:57; `reportError`
returns, so execution continues after every reported error; ranging over the
declarations of a nil `*ast.File` panics. -/
def goMain (modifiedFlag importsOnlyFlag : Bool) (file : String)
    (archiveResult : Except String (List (String × String)))
    (disk : Option String)
    (parseFile : Option String → ParserMode → ParseOut) : MainResult :=
  let parserMode := if importsOnlyFlag then ParserMode.importsOnly else ParserMode.parseComments
  let step :=
    if modifiedFlag then
      let archPart :=
        match archiveResult with
        | .error e =>
          (([errLine ("failed to parse -modified archive: " ++ e)] : List String),
           ([] : List (String × String)))
        | .ok a => ([], a)
      let missPart :=
        match archPart.2.lookup file with
        | none => (([errLine ("couldn\x27t find " ++ file ++ " in archive")] : List String), "")
        | some c => ([], c)
      let po := parseFile (some missPart.2) parserMode
      (archPart.1 ++ missPart.1, po.fileAst, (none : Option String))
    else
      let po := parseFile disk parserMode
      (([] : List String), po.fileAst, po.err)
  let parseErrs :=
    match step.2.2 with
    | some _ => [errLine ("could not parse file " ++ file)]
    | none => ([] : List String)
  match step.2.1 with
  | none => ⟨step.1 ++ parseErrs, none, true⟩
  | some f =>
    let b := buildDecls f.decls
    if b.panicked then
      ⟨step.1 ++ parseErrs ++ b.errs.map errLine, none, true⟩
    else
      ⟨step.1 ++ parseErrs ++ b.errs.map errLine, some [rootNode f], false⟩

/-- The text printed to standard output, when `fmt.Println` (main.go:133) is
reached: the JSON array for the `[]*Declaration` value (trailing newline
elided). -/
def MainResult.stdout (r : MainResult) : Option String :=
  r.printed.map fun pkg => "[" ++ String.intercalate "," (pkg.map marshalDecl) ++ "]"

/-- Receiver well-formedness of the methods of a syntactically valid Go file:
the language spec requires exactly one receiver, so a non-nil receiver field
list is non-empty. Note this is a property of valid Go, not a `go/parser`
guarantee: since Go 1.18 the parser accepts a receiverless method such as
`func () F()` with no error and an empty field list (the arity check lives in
`go/types`, which reports it as `BadRecv`), so a successfully *parsed* file
can violate this predicate. -/
def GoDecl.recvWF : GoDecl → Prop
  | .funcDecl _ recv _ _ => recv ≠ some []
  | _ => True

/-- The `ast.Spec` shapes `go/parser` can produce: exactly the three
implementations of the interface that the switch at main.go:80 names. -/
def GoSpec.known : GoSpec → Prop
  | .otherSpec => False
  | _ => True

/-- A top-level declaration as found in a syntactically valid parsed file:
a function or method with a well-formed receiver, or a grouped declaration
whose specs are all of known shape (no `*ast.BadDecl`, which only partial
ASTs contain). -/
def GoDecl.valid : GoDecl → Prop
  | .funcDecl _ recv _ _ => recv ≠ some []
  | .genDecl _ specs _ _ => ∀ s ∈ specs, s.known
  | .badDecl _ _ => False

/-- All top-level declarations of the file are valid. -/
def GoFile.valid (f : GoFile) : Prop := ∀ d ∈ f.decls, d.valid

/-- The outline nodes one top-level declaration contributes. -/
def declsOf (d : GoDecl) : List Declaration := ((processDecl d).getD ([], [])).1

/-- The stderr messages one top-level declaration contributes. -/
def errsOf (d : GoDecl) : List String := ((processDecl d).getD ([], [])).2

/-- Count of import specs in one spec (measure for the child-count property). -/
def GoSpec.importCount : GoSpec → Nat
  | .importSpec _ _ _ => 1
  | _ => 0

/-- Count of type specs in one spec. -/
def GoSpec.typeCount : GoSpec → Nat
  | .typeSpec _ _ _ => 1
  | _ => 0

/-- Number of identifiers declared by one value spec. -/
def GoSpec.valueIdCount : GoSpec → Nat
  | .valueSpec names => names.length
  | _ => 0

/-- 1 for a function/method declaration. -/
def GoDecl.funcCount : GoDecl → Nat
  | .funcDecl _ _ _ _ => 1
  | _ => 0

/-- Import specs contributed by one top-level declaration. -/
def GoDecl.importSpecCount : GoDecl → Nat
  | .genDecl _ specs _ _ => (specs.map GoSpec.importCount).sum
  | _ => 0

/-- Type specs contributed by one top-level declaration. -/
def GoDecl.typeSpecCount : GoDecl → Nat
  | .genDecl _ specs _ _ => (specs.map GoSpec.typeCount).sum
  | _ => 0

/-- Value-spec identifiers contributed by one top-level declaration. -/
def GoDecl.valueIdCount : GoDecl → Nat
  | .genDecl _ specs _ _ => (specs.map GoSpec.valueIdCount).sum
  | _ => 0

/-- Fixture: a parsed file whose single method has a malformed receiver type
node, the input on which `format.Node` fails. -/
def fileBadRecv : GoFile :=
  ⟨1, "main", 12, [.funcDecl "Bar" (some [⟨["r"], .bad⟩]) 20 40]⟩

/-- Fixture: `parser.ParseFile` succeeding with `fileBadRecv`. -/
def parseBadRecv : Option String → ParserMode → ParseOut :=
  fun _ _ => ⟨some fileBadRecv, none⟩

/-- What `parser.ParseFile` returns for readable but invalid source: a non-nil
but empty `*ast.File` (its documented behaviour: on a source that does not
parse it still returns a valid file value, here with a fresh empty `Name`
identifier and no declarations) together with the scanner error. -/
def emptyAstOut : ParseOut :=
  ⟨some ⟨0, "", 0, []⟩, some "expected package clause"⟩

/-- Fixture parser for the overlay-miss run: the empty source (the nil byte
slice of a missed archive lookup) yields `emptyAstOut`; any other source —
in particular the on-disk content — parses as package `ondisk`. -/
def parseOverlayMiss : Option String → ParserMode → ParseOut :=
  fun src _ =>
    if src = some "" then emptyAstOut
    else ⟨some ⟨1, "ondisk", 15, []⟩, none⟩

/-- Fixture parser for the overlay parse-failure run: the overlay content
`"garbage"` does not parse — a partial (here: empty of declarations) AST plus
an error; nothing else is ever handed to it. -/
def parseOverlayGarbage : Option String → ParserMode → ParseOut :=
  fun src _ =>
    if src = some "garbage" then ⟨some ⟨1, "main", 12, []⟩, some "expected declaration"⟩
    else ⟨none, some "unreachable"⟩

/-- Fixture: a small valid file with one import, one const group declaring two
identifiers, one type and one method. -/
def sampleFile : GoFile :=
  ⟨1, "main", 12,
   [.genDecl .IMPORT [.importSpec "\x22fmt\x22" 20 25] 13 25,
    .genDecl .CONST [.valueSpec [⟨"a", 30, 31⟩, ⟨"b", 33, 34⟩]] 26 40,
    .genDecl .TYPE [.typeSpec "T" 45 50] 41 50,
    .funcDecl "Bar" (some [⟨["r"], .star (.ident "Foo")⟩]) 55 80]⟩

/-- Fixture: `parser.ParseFile` succeeding with `sampleFile`. -/
def parseSample : Option String → ParserMode → ParseOut :=
  fun _ _ => ⟨some sampleFile, none⟩

/-- Fixture: the AST `go/parser` (Go 1.18+) returns, with a nil error, for the
receiverless method `package p` / `func () F()`: the `*ast.FuncDecl` has a
non-nil `Recv` whose `List` is empty (the one-receiver arity check lives in
`go/types`, which flags it as `BadRecv`; the parser does not reject it). -/
def fileEmptyRecv : GoFile :=
  ⟨1, "p", 10, [.funcDecl "F" (some []) 12 26]⟩

/-- Fixture: `parser.ParseFile` succeeding (nil error) with `fileEmptyRecv`. -/
def parseEmptyRecv : Option String → ParserMode → ParseOut :=
  fun _ _ => ⟨some fileEmptyRecv, none⟩

/-- Unfolding equation for `marshalDecl` with the `attach` artifact removed. -/
theorem marshalDecl_mk (label type receiverType : String) (start pend : Nat)
    (children : List Declaration) :
    marshalDecl (.mk label type receiverType start pend children) =
    "\x7b" ++ jstr "label" ++ ":" ++ jstr label
    ++ "," ++ jstr "type" ++ ":" ++ jstr type
    ++ (if receiverType = "" then "" else "," ++ jstr "receiverType" ++ ":" ++ jstr receiverType)
    ++ "," ++ jstr "start" ++ ":" ++ toString start
    ++ "," ++ jstr "end" ++ ":" ++ toString pend
    ++ (if children.isEmpty then ""
        else "," ++ jstr "children" ++ ":["
             ++ String.intercalate "," (children.map marshalDecl) ++ "]")
    ++ "\x7d" := by
  unfold marshalDecl
  rw [List.attach_map_val]

/-- The `foldl` of the `*ast.GenDecl` case concatenates per-spec outputs. -/
theorem processGen_foldl (tok : GoToken) (specs : List GoSpec)
    (acc : List Declaration × List String) :
    specs.foldl
      (fun acc s =>
        let r := processSpec tok s
        (acc.1 ++ r.1, acc.2 ++ r.2)) acc
      = (acc.1 ++ specs.flatMap (fun s => (processSpec tok s).1),
         acc.2 ++ specs.flatMap (fun s => (processSpec tok s).2)) := by
  induction specs generalizing acc with
  | nil => simp
  | cons s ss ih => simp [ih, List.append_assoc]

/-- `processDecl` on a grouped declaration: per-spec outputs in order. -/
theorem processDecl_genDecl (tok : GoToken) (specs : List GoSpec) (p e : Nat) :
    processDecl (.genDecl tok specs p e)
      = some (specs.flatMap (fun s => (processSpec tok s).1),
              specs.flatMap (fun s => (processSpec tok s).2)) := by
  simp [processDecl, processGen_foldl]

/-- Under the receiver well-formedness hypothesis, no builder case panics. -/
theorem processDecl_isSome_of_recvWF (d : GoDecl) (h : d.recvWF) :
    (processDecl d).isSome := by
  cases d with
  | funcDecl n recv p e =>
    cases recv with
    | none => simp [processDecl, processFuncDecl, getReceiverType]
    | some fields =>
      cases fields with
      | nil => simp [GoDecl.recvWF] at h
      | cons fld rest =>
        cases hf : formatNode fld.type <;>
          simp [processDecl, processFuncDecl, getReceiverType, hf]
  | genDecl tok specs p e => simp [processDecl_genDecl]
  | badDecl p e => simp [processDecl]

/-- Under the receiver well-formedness hypothesis, the builder loop does not
panic and emits the per-declaration outputs concatenated in source order. -/
theorem buildDecls_eq (ds : List GoDecl) (h : ∀ d ∈ ds, d.recvWF) :
    buildDecls ds = ⟨ds.flatMap declsOf, ds.flatMap errsOf, false⟩ := by
  induction ds with
  | nil => simp [buildDecls]
  | cons d ds ih =>
    have hd := processDecl_isSome_of_recvWF d (h d (by simp))
    obtain ⟨out, hout⟩ := Option.isSome_iff_exists.mp hd
    obtain ⟨dd, ee⟩ := out
    rw [buildDecls, hout, ih (fun x hx => h x (by simp [hx]))]
    simp [declsOf, errsOf, hout]

/-- Distributing `List.sum` over a pointwise sum. -/
theorem sum_map_add {α : Type} (f g : α → Nat) (l : List α) :
    (l.map fun x => f x + g x).sum = (l.map f).sum + (l.map g).sum := by
  induction l with
  | nil => rfl
  | cons x xs ih =>
    simp only [List.map_cons, List.sum_cons, ih]
    omega

/-- Nodes contributed by one spec, counted. -/
theorem processSpec_fst_length (tok : GoToken) (s : GoSpec) :
    ((processSpec tok s).1).length = s.importCount + s.typeCount + s.valueIdCount := by
  cases s <;>
    simp [processSpec, GoSpec.importCount, GoSpec.typeCount, GoSpec.valueIdCount]

/-- Nodes contributed by one top-level declaration, counted. -/
theorem declsOf_length (d : GoDecl) (h : d.recvWF) :
    (declsOf d).length
      = d.funcCount + d.importSpecCount + d.typeSpecCount + d.valueIdCount := by
  cases d with
  | funcDecl n recv p e =>
    cases recv with
    | none =>
      simp [declsOf, processDecl, processFuncDecl, getReceiverType, GoDecl.funcCount,
        GoDecl.importSpecCount, GoDecl.typeSpecCount, GoDecl.valueIdCount]
    | some fields =>
      cases fields with
      | nil => simp [GoDecl.recvWF] at h
      | cons fld rest =>
        cases hf : formatNode fld.type <;>
          simp [declsOf, processDecl, processFuncDecl, getReceiverType, hf, GoDecl.funcCount,
            GoDecl.importSpecCount, GoDecl.typeSpecCount, GoDecl.valueIdCount]
  | genDecl tok specs p e =>
    simp only [declsOf, processDecl_genDecl, Option.getD_some, List.length_flatMap,
      GoDecl.funcCount, GoDecl.importSpecCount, GoDecl.typeSpecCount, GoDecl.valueIdCount,
      Function.comp_def]
    rw [show (fun s => ((processSpec tok s).1).length)
          = fun s => s.importCount + s.typeCount + s.valueIdCount from
        funext fun s => processSpec_fst_length tok s]
    rw [show (fun s => s.importCount + s.typeCount + s.valueIdCount)
          = fun s : GoSpec => (s.importCount + s.typeCount) + s.valueIdCount from rfl,
      sum_map_add, sum_map_add]
    omega
  | badDecl p e =>
    simp [declsOf, processDecl, GoDecl.funcCount, GoDecl.importSpecCount,
      GoDecl.typeSpecCount, GoDecl.valueIdCount]

/-- Every node the builder loop emits carries an empty `children` slice. -/
theorem children_of_declsOf (d : GoDecl) (x : Declaration) (hx : x ∈ declsOf d) :
    x.children = [] := by
  cases d with
  | funcDecl n recv p e =>
    cases recv with
    | none =>
      simp [declsOf, processDecl, processFuncDecl, getReceiverType] at hx
      simp [hx, Declaration.children]
    | some fields =>
      cases fields with
      | nil => simp [declsOf, processDecl, processFuncDecl, getReceiverType] at hx
      | cons fld rest =>
        cases hf : formatNode fld.type <;>
          · simp [declsOf, processDecl, processFuncDecl, getReceiverType, hf] at hx
            simp [hx, Declaration.children]
  | genDecl tok specs p e =>
    simp only [declsOf, processDecl_genDecl, Option.getD_some, List.mem_flatMap] at hx
    obtain ⟨s, _, hxs⟩ := hx
    cases s with
    | importSpec v sp se =>
      simp [processSpec] at hxs
      simp [hxs, Declaration.children]
    | typeSpec nm sp se =>
      simp [processSpec] at hxs
      simp [hxs, Declaration.children]
    | valueSpec names =>
      simp [processSpec] at hxs
      obtain ⟨i, _, hi⟩ := hxs
      simp [← hi, Declaration.children]
    | otherSpec => simp [processSpec] at hxs
  | badDecl p e => simp [declsOf, processDecl] at hx

/-- C1: the claim says every error terminates the run with no stdout output,
and in particular a receiver-render failure aborts the whole run. The code
disagrees: `reportError` only prints and returns, so on a file whose single
method has a receiver `format.Node` cannot render, the run reports
`failed to parse receiver type` to stderr and then still prints the full
outline (with an empty `receiverType`) to stdout. -/
theorem claim_C1 :
    (goMain false false "f.go" (.ok []) (some "package main") parseBadRecv).stderr
      = [errLine "failed to parse receiver type: unsupported node type"]
    ∧ (goMain false false "f.go" (.ok []) (some "package main") parseBadRecv).printed
      = some [.mk "main" "package" "" 1 40 [.mk "Bar" "function" "" 20 40 []]] :=
  ⟨rfl, rfl⟩

/-- C2: the claim says an overlay miss fails the run, produces no stdout and
does not fall back to disk. The code indeed never reads the disk (the missed
lookup leaves `fc` as the nil byte slice, handed to the parser as an empty
source — the printed package name is the empty one of the empty source, not
`ondisk`), but after reporting `could not find ... in archive` it continues and
prints an outline to stdout. -/
theorem claim_C2 :
    (goMain true false "f.go" (.ok [("other.go", "package other")]) (some "package ondisk")
        parseOverlayMiss).stderr = [errLine "couldn\x27t find f.go in archive"]
    ∧ (goMain true false "f.go" (.ok [("other.go", "package other")]) (some "package ondisk")
        parseOverlayMiss).printed = some [.mk "" "package" "" 0 0 []] :=
  ⟨rfl, rfl⟩

/-- C3: the claim says a parse failure is reported in both modes. In
`-modified` mode the `err := ` at main.go:44 shadows the outer `err`, so the
`parser.ParseFile` error assigned at main.go:52 is never seen by the check at
main.go:57: on an overlay whose content does not parse, stderr stays empty and
the outline of the partial AST is printed. -/
theorem claim_C3 :
    (goMain true false "f.go" (.ok [("f.go", "garbage")]) none parseOverlayGarbage).stderr = []
    ∧ (goMain true false "f.go" (.ok [("f.go", "garbage")]) none parseOverlayGarbage).printed
      = some [.mk "main" "package" "" 1 12 []] :=
  ⟨rfl, rfl⟩

/-- C4: for every syntactically valid input file (the parser returns an AST
and no error, its methods have well-formed receivers), a successful run prints exactly
one root `Declaration`, of kind `package`, labelled with the declared package
name, spanning `fileAst.Pos()..fileAst.End()`. -/
theorem claim_C4 (importsOnlyFlag : Bool) (file : String)
    (archiveResult : Except String (List (String × String))) (disk : Option String)
    (parseFile : Option String → ParserMode → ParseOut) (f : GoFile)
    (hp : parseFile disk
        (if importsOnlyFlag then ParserMode.importsOnly else ParserMode.parseComments)
        = ⟨some f, none⟩)
    (hw : ∀ d ∈ f.decls, d.recvWF) :
    (goMain false importsOnlyFlag file archiveResult disk parseFile).printed
      = some [rootNode f]
    ∧ (rootNode f).type = "package"
    ∧ (rootNode f).label = f.name
    ∧ (rootNode f).start = f.pos
    ∧ (rootNode f).pend = f.pend := by
  refine ⟨?_, rfl, rfl, rfl, rfl⟩
  simp only [goMain, if_neg Bool.false_ne_true, Bool.false_eq_true, if_false, hp,
    buildDecls_eq f.decls hw]

/-- Witness for C4 on a concrete file and parser. -/
theorem claim_C4_witness :
    (goMain false false "sample.go" (.ok []) (some "src") parseSample).printed
      = some [rootNode sampleFile]
    ∧ (rootNode sampleFile).type = "package"
    ∧ (rootNode sampleFile).label = sampleFile.name
    ∧ (rootNode sampleFile).start = sampleFile.pos
    ∧ (rootNode sampleFile).pend = sampleFile.pend :=
  claim_C4 false "sample.go" (.ok []) (some "src") parseSample sampleFile rfl
    (by
      intro d hd
      simp only [sampleFile, List.mem_cons, List.not_mem_nil, or_false] at hd
      rcases hd with h | h | h | h <;> subst h <;> simp [GoDecl.recvWF])

/-- Counting the concatenated per-declaration outputs. -/
theorem flatMap_declsOf_length (ds : List GoDecl) (h : ∀ d ∈ ds, d.recvWF) :
    (ds.flatMap declsOf).length
      = (ds.map GoDecl.funcCount).sum + (ds.map GoDecl.importSpecCount).sum
        + (ds.map GoDecl.typeSpecCount).sum + (ds.map GoDecl.valueIdCount).sum := by
  induction ds with
  | nil => rfl
  | cons d ds ih =>
    have hd : (declsOf d).length
        = d.funcCount + d.importSpecCount + d.typeSpecCount + d.valueIdCount :=
      declsOf_length d (h d (by simp))
    have ihs := ih (fun x hx => h x (by simp [hx]))
    simp only [List.flatMap_cons, List.length_append, List.map_cons, List.sum_cons, hd, ihs]
    omega

/-- C5: for a syntactically valid file, the number of direct children of the
root equals functions/methods + import specs + type specs + identifiers
declared across value specs, at top level. -/
theorem claim_C5 (f : GoFile) (h : ∀ d ∈ f.decls, d.recvWF) :
    (buildDecls f.decls).decls.length
      = (f.decls.map GoDecl.funcCount).sum
        + (f.decls.map GoDecl.importSpecCount).sum
        + (f.decls.map GoDecl.typeSpecCount).sum
        + (f.decls.map GoDecl.valueIdCount).sum := by
  rw [buildDecls_eq f.decls h]
  exact flatMap_declsOf_length f.decls h

/-- Witness for C5 on a concrete file: 1 function + 1 import spec + 1 type
spec + 2 value-spec identifiers = 5 children. -/
theorem claim_C5_witness :
    (buildDecls sampleFile.decls).decls.length
      = (sampleFile.decls.map GoDecl.funcCount).sum
        + (sampleFile.decls.map GoDecl.importSpecCount).sum
        + (sampleFile.decls.map GoDecl.typeSpecCount).sum
        + (sampleFile.decls.map GoDecl.valueIdCount).sum :=
  claim_C5 sampleFile
    (by
      intro d hd
      simp only [sampleFile, List.mem_cons, List.not_mem_nil, or_false] at hd
      rcases hd with h | h | h | h <;> subst h <;> simp [GoDecl.recvWF])

/-- C6: each identifier of a value spec becomes its own sibling node, in
left-to-right order within the spec (the `List.map` over `spec.Names`), with
kind `constant` exactly when the group token is the constant keyword and
`variable` otherwise; and the builder emits the per-declaration outputs
concatenated in source declaration order. -/
theorem claim_C6 :
    (∀ (tok : GoToken) (names : List VIdent),
      processSpec tok (.valueSpec names)
        = (names.map fun i =>
            Declaration.mk i.name (if tok = GoToken.CONST then "constant" else "variable")
              "" i.pos i.pend [],
           []))
    ∧ ∀ (ds : List GoDecl), (∀ d ∈ ds, d.recvWF) →
        (buildDecls ds).decls = ds.flatMap declsOf :=
  ⟨fun _ _ => rfl, fun ds h => by rw [buildDecls_eq ds h]⟩

/-- Witness for C6: a two-identifier `const` spec and the concrete sample
file, with both parts of the claim applied. -/
theorem claim_C6_witness :
    processSpec GoToken.CONST (.valueSpec [⟨"a", 30, 31⟩, ⟨"b", 33, 34⟩])
      = ([Declaration.mk "a" "constant" "" 30 31 [],
          Declaration.mk "b" "constant" "" 33 34 []], [])
    ∧ (buildDecls sampleFile.decls).decls = sampleFile.decls.flatMap declsOf := by
  constructor
  · rw [claim_C6.1 GoToken.CONST [⟨"a", 30, 31⟩, ⟨"b", 33, 34⟩]]
    rfl
  · exact claim_C6.2 sampleFile.decls
      (by
        intro d hd
        simp only [sampleFile, List.mem_cons, List.not_mem_nil, or_false] at hd
        rcases hd with h | h | h | h <;> subst h <;> simp [GoDecl.recvWF])

/-- C7: a plain function (nil receiver clause) gets the empty (hence, under
`omitempty`, absent) receiver type; a method gets exactly the rendered text of
the declared receiver type expression — the receiver variable names play no
role — and the rendering preserves pointer markers and generic type parameter
lists. -/
theorem claim_C7 :
    getReceiverType none = some (.ok "")
    ∧ (∀ (names : List String) (t : TypeExpr) (rest : List GoField) (s : String),
        formatNode t = .ok s →
        getReceiverType (some (⟨names, t⟩ :: rest)) = some (.ok s))
    ∧ (∀ (t : TypeExpr) (s : String), formatNode t = .ok s →
        formatNode (.star t) = .ok ("*" ++ s))
    ∧ (∀ (t : TypeExpr) (s : String) (args : List String), formatNode t = .ok s →
        formatNode (.indexList t args)
          = .ok (s ++ "[" ++ String.intercalate ", " args ++ "]")) := by
  refine ⟨rfl, ?_, ?_, ?_⟩
  · intro names t rest s hs
    simp [getReceiverType, hs]
  · intro t s hs
    simp [formatNode, hs]
  · intro t s args hs
    simp [formatNode, hs]

/-- Witness for C7: `func (r *Foo) Bar()` yields receiver type `*Foo`
(variable name `r` ignored), and a nil receiver yields the empty string. -/
theorem claim_C7_witness :
    getReceiverType (some [⟨["r"], TypeExpr.star (.ident "Foo")⟩]) = some (.ok "*Foo")
    ∧ getReceiverType none = some (.ok "") :=
  ⟨claim_C7.2.1 ["r"] (TypeExpr.star (.ident "Foo")) [] "*Foo"
      (claim_C7.2.2.1 (.ident "Foo") "Foo" rfl),
   claim_C7.1⟩

/-- C8: the emitted `import` node keeps `spec.Path.Value` — the raw, quoted
path literal, surrounding quote characters included — as its label verbatim,
with no unquoting or normalization applied anywhere between the spec and the
node. -/
theorem claim_C8 (tok : GoToken) (pathValue : String) (pos pend : Nat) :
    processSpec tok (.importSpec pathValue pos pend)
      = ([Declaration.mk pathValue "import" "" pos pend []], [])
    ∧ (Declaration.mk pathValue "import" "" pos pend []).label = pathValue :=
  ⟨rfl, rfl⟩

/-- C9: every node the builder loop emits (all non-root kinds) carries a
present-but-empty `children` sequence, so only the root `package` node can
have a non-empty one; and the serialized JSON of a node with empty children
omits the `children` field entirely (the `omitempty` tag). -/
theorem claim_C9 :
    (∀ (ds : List GoDecl) (x : Declaration), x ∈ (buildDecls ds).decls → x.children = [])
    ∧ ∀ (label type receiverType : String) (start pend : Nat),
        marshalDecl (.mk label type receiverType start pend []) =
          "\x7b" ++ jstr "label" ++ ":" ++ jstr label
          ++ "," ++ jstr "type" ++ ":" ++ jstr type
          ++ (if receiverType = ""
              then "" else "," ++ jstr "receiverType" ++ ":" ++ jstr receiverType)
          ++ "," ++ jstr "start" ++ ":" ++ toString start
          ++ "," ++ jstr "end" ++ ":" ++ toString pend
          ++ "\x7d" := by
  constructor
  · intro ds x hx
    induction ds with
    | nil => simp [buildDecls] at hx
    | cons d ds ih =>
      cases hpd : processDecl d with
      | none =>
        rw [buildDecls, hpd] at hx
        simp at hx
      | some out =>
        obtain ⟨dd, ee⟩ := out
        rw [buildDecls, hpd] at hx
        simp only [List.mem_append] at hx
        rcases hx with hx | hx
        · exact children_of_declsOf d x (by simp [declsOf, hpd, hx])
        · exact ih hx
  · intro l t rt s e
    rw [marshalDecl_mk]
    simp

/-- Witness for C9: the import node of the sample file has empty children in
the built tree, and its serialization has no `children` key. -/
theorem claim_C9_witness :
    (Declaration.mk "\x22fmt\x22" "import" "" 20 25 []).children = []
    ∧ marshalDecl (.mk "\x22fmt\x22" "import" "" 20 25 []) =
        "\x7b" ++ jstr "label" ++ ":" ++ jstr "\x22fmt\x22"
        ++ "," ++ jstr "type" ++ ":" ++ jstr "import"
        ++ (if "" = ("" : String)
            then "" else "," ++ jstr "receiverType" ++ ":" ++ jstr "")
        ++ "," ++ jstr "start" ++ ":" ++ toString (20 : Nat)
        ++ "," ++ jstr "end" ++ ":" ++ toString (25 : Nat)
        ++ "\x7d" := by
  constructor
  · exact claim_C9.1 sampleFile.decls (Declaration.mk "\x22fmt\x22" "import" "" 20 25 [])
      (by
        show Declaration.mk "\x22fmt\x22" "import" "" 20 25 []
          ∈ (buildDecls sampleFile.decls).decls
        have he : (buildDecls sampleFile.decls).decls
            = [Declaration.mk "\x22fmt\x22" "import" "" 20 25 [],
               Declaration.mk "a" "constant" "" 30 31 [],
               Declaration.mk "b" "constant" "" 33 34 [],
               Declaration.mk "T" "type" "" 45 50 [],
               Declaration.mk "Bar" "function" "*Foo" 55 80 []] := rfl
        rw [he]
        exact List.mem_cons_self _ _)
  · exact claim_C9.2 "\x22fmt\x22" "import" "" 20 25

/-- C10: the claim says `getReceiverType` is total on the declarations of a
successfully parsed file because a non-nil receiver field list is then
non-empty. That premise is false of the collaborator: `go/parser` (Go 1.18+)
parses the receiverless method `func () F()` with a nil error, yielding
`Recv != nil` with an empty `List`, and on that declaration
`decl.Recv.List[0]` (main.go:142) is out of bounds. The nil-receiver half of
the claim does hold (`getReceiverType none` is the error-free empty string),
but on the empty-list input `getReceiverType` panics (`none` in the model)
and the whole run dies in the panic with nothing printed. -/
theorem claim_C10 :
    getReceiverType none = some (.ok "")
    ∧ getReceiverType (some []) = none
    ∧ (goMain false false "f.go" (.ok []) (some "package p") parseEmptyRecv).panicked = true
    ∧ (goMain false false "f.go" (.ok []) (some "package p") parseEmptyRecv).printed = none :=
  ⟨rfl, rfl, rfl, rfl⟩

end GoOutline
